import Mathlib

set_option maxRecDepth 8000

namespace FarmApp

/-! Shallow embedding of `src/app.py` (farm inspection dashboard).

Pandas cells of an object (string) column are either strings or the
missing-value marker NaN; `pd.read_csv` reads an empty CSV cell as NaN.
Python exceptions that the modelled code can raise are made explicit via
`Except`.  HTTP fetching and image decoding are external collaborators and
are modelled as oracles passed in as functions. -/

/-- A pandas cell of an object column: a string value, or NaN (missing). -/
inductive PyCell where
  | str (s : String)
  | nan
deriving DecidableEq

/-- Python exceptions raised by the modelled code paths. -/
inductive PyError where
  | typeError
  | keyError (k : String)
deriving DecidableEq

/-- Parsed JSON values as produced by Python's `json.loads`.  Numbers keep
their source lexeme (their numeric value is never used by the app except for
truthiness and NaN-ness).  Objects keep their member list in source order;
lookups take the last binding of a key, matching Python dict semantics. -/
inductive Json where
  | null
  | bool (b : Bool)
  | num (lit : String)
  | str (s : String)
  | arr (items : List Json)
  | obj (fields : List (String × Json))

/-- JSON whitespace accepted between tokens by `json.loads`. -/
def isJsonWs (c : Char) : Bool := c = ' ' || c = '\t' || c = '\n' || c = '\r'

/-- Skip JSON inter-token whitespace. -/
def skipWs (cs : List Char) : List Char := cs.dropWhile isJsonWs

/-- Value of a hexadecimal digit, if the character is one. -/
def hexDigit (c : Char) : Option Nat :=
  if '0' ≤ c ∧ c ≤ '9' then some (c.toNat - 48)
  else if 'a' ≤ c ∧ c ≤ 'f' then some (c.toNat - 87)
  else if 'A' ≤ c ∧ c ≤ 'F' then some (c.toNat - 55)
  else none

/-- Parse the body of a JSON string literal (after the opening quote),
handling the escapes `json.loads` accepts and rejecting raw control
characters (strict mode).  Fuel bounds recursion; each step consumes input. -/
def parseJString (fuel : Nat) (acc : List Char) (cs : List Char) :
    Option (String × List Char) :=
  match fuel, cs with
  | 0, _ => none
  | _, [] => none
  | f + 1, c :: rest =>
    if c = '"' then some (String.mk acc.reverse, rest)
    else if c = '\\' then
      match rest with
      | [] => none
      | e :: r2 =>
        if e = '"' then parseJString f ('"' :: acc) r2
        else if e = '\\' then parseJString f ('\\' :: acc) r2
        else if e = '/' then parseJString f ('/' :: acc) r2
        else if e = 'b' then parseJString f ('\x08' :: acc) r2
        else if e = 'f' then parseJString f ('\x0c' :: acc) r2
        else if e = 'n' then parseJString f ('\n' :: acc) r2
        else if e = 'r' then parseJString f ('\x0d' :: acc) r2
        else if e = 't' then parseJString f ('\t' :: acc) r2
        else if e = 'u' then
          match r2 with
          | h1 :: h2 :: h3 :: h4 :: r3 =>
            match hexDigit h1, hexDigit h2, hexDigit h3, hexDigit h4 with
            | some a, some b, some c3, some d =>
              parseJString f (Char.ofNat (((a * 16 + b) * 16 + c3) * 16 + d) :: acc) r3
            | _, _, _, _ => none
          | _ => none
        else none
    else if c.toNat < 32 then none
    else parseJString f (c :: acc) rest

/-- Parse the integer part of a JSON number: `0`, or a nonzero digit followed
by digits (leading zeros are not part of the token, as in Python's json). -/
def parseIntPart : List Char → Option (List Char × List Char)
  | [] => none
  | c :: rest =>
    if c = '0' then some (['0'], rest)
    else if c.isDigit then
      some (c :: rest.takeWhile Char.isDigit, rest.dropWhile Char.isDigit)
    else none

/-- Parse an optional fraction part `.digits`; consumes nothing if absent. -/
def parseFracPart (cs : List Char) : List Char × List Char :=
  match cs with
  | '.' :: rest =>
    let ds := rest.takeWhile Char.isDigit
    if ds.isEmpty then ([], cs) else ('.' :: ds, rest.dropWhile Char.isDigit)
  | _ => ([], cs)

/-- Parse an optional exponent part `[eE][+-]?digits`; consumes nothing if
absent or malformed (the number token then ends before it). -/
def parseExpPart (cs : List Char) : List Char × List Char :=
  match cs with
  | e :: rest =>
    if e = 'e' ∨ e = 'E' then
      match rest with
      | s :: rest2 =>
        if s = '+' ∨ s = '-' then
          let ds := rest2.takeWhile Char.isDigit
          if ds.isEmpty then ([], cs) else (e :: s :: ds, rest2.dropWhile Char.isDigit)
        else
          let ds := rest.takeWhile Char.isDigit
          if ds.isEmpty then ([], cs) else (e :: ds, rest.dropWhile Char.isDigit)
      | [] => ([], cs)
    else ([], cs)
  | [] => ([], cs)

/-- Parse a JSON number token, returning its lexeme. -/
def parseNumber (cs : List Char) : Option (String × List Char) :=
  let (negl, cs1) := match cs with
    | '-' :: r => (['-'], r)
    | _ => (([] : List Char), cs)
  match parseIntPart cs1 with
  | none => none
  | some (ip, cs2) =>
    let (fp, cs3) := parseFracPart cs2
    let (ep, cs4) := parseExpPart cs3
    some (String.mk (negl ++ ip ++ fp ++ ep), cs4)

mutual

/-- Parse one JSON value (after optional leading whitespace), mirroring the
grammar accepted by Python's `json.loads` (including the non-standard
constants `NaN`, `Infinity`, `-Infinity` that Python accepts by default). -/
def parseValue : Nat → List Char → Option (Json × List Char)
  | 0, _ => none
  | f + 1, cs =>
    match skipWs cs with
    | 'n' :: 'u' :: 'l' :: 'l' :: rest => some (.null, rest)
    | 't' :: 'r' :: 'u' :: 'e' :: rest => some (.bool true, rest)
    | 'f' :: 'a' :: 'l' :: 's' :: 'e' :: rest => some (.bool false, rest)
    | 'N' :: 'a' :: 'N' :: rest => some (.num "NaN", rest)
    | 'I' :: 'n' :: 'f' :: 'i' :: 'n' :: 'i' :: 't' :: 'y' :: rest =>
      some (.num "Infinity", rest)
    | '-' :: 'I' :: 'n' :: 'f' :: 'i' :: 'n' :: 'i' :: 't' :: 'y' :: rest =>
      some (.num "-Infinity", rest)
    | '"' :: rest =>
      (parseJString (rest.length + 1) [] rest).map (fun p => (.str p.1, p.2))
    | '[' :: rest =>
      (match skipWs rest with
       | ']' :: r2 => some (.arr [], r2)
       | _ => parseItems f rest [])
    | '{' :: rest =>
      (match skipWs rest with
       | '}' :: r2 => some (.obj [], r2)
       | _ => parseMembers f rest [])
    | cs2 => (parseNumber cs2).map (fun p => (.num p.1, p.2))

/-- Parse the elements of a (non-empty) JSON array after `[`. -/
def parseItems : Nat → List Char → List Json → Option (Json × List Char)
  | 0, _, _ => none
  | f + 1, cs, acc =>
    match parseValue f cs with
    | none => none
    | some (v, r) =>
      match skipWs r with
      | ',' :: r2 => parseItems f r2 (v :: acc)
      | ']' :: r2 => some (.arr (v :: acc).reverse, r2)
      | _ => none

/-- Parse the members of a (non-empty) JSON object after the opening brace. -/
def parseMembers : Nat → List Char → List (String × Json) →
    Option (Json × List Char)
  | 0, _, _ => none
  | f + 1, cs, acc =>
    match skipWs cs with
    | '"' :: r =>
      match parseJString (r.length + 1) [] r with
      | none => none
      | some (k, r2) =>
        match skipWs r2 with
        | ':' :: r3 =>
          match parseValue f r3 with
          | none => none
          | some (v, r4) =>
            match skipWs r4 with
            | ',' :: r5 => parseMembers f r5 ((k, v) :: acc)
            | '}' :: r5 => some (.obj ((k, v) :: acc).reverse, r5)
            | _ => none
        | _ => none
    | _ => none

end

/-- Python's `json.loads`: parse a whole string as a single JSON document,
rejecting trailing garbage.  Errors are `json.JSONDecodeError`. -/
def json_loads (s : String) : Except String Json :=
  let cs := s.toList
  match parseValue (2 * cs.length + 4) cs with
  | some (v, rest) =>
    if (skipWs rest).isEmpty then .ok v else .error "Extra data"
  | none => .error "JSONDecodeError"

/-- Embeds `safe_json_loads` (app.py lines 14-18): `json.loads` wrapped in a
handler that catches only `json.JSONDecodeError`.  A NaN cell (missing CSV
value) makes `json.loads` raise `TypeError`, which is not caught. -/
def safe_json_loads (cell : PyCell) : Except PyError (Option Json) :=
  match cell with
  | .str s =>
    match json_loads s with
    | .ok v => .ok (some v)
    | .error _ => .ok none
  | .nan => .error .typeError

/-- Python truthiness of a parsed-number lexeme: zero is falsy, any other
number (including NaN and the infinities) is truthy. -/
def numTruthy (lit : String) : Bool :=
  lit = "NaN" || lit = "Infinity" || lit = "-Infinity" ||
    (lit.toList.takeWhile (fun c => c ≠ 'e' ∧ c ≠ 'E')).any
      (fun c => c.isDigit ∧ c ≠ '0')

/-- Python truthiness of a parsed JSON value. -/
def truthy : Json → Bool
  | .null => false
  | .bool b => b
  | .num lit => numTruthy lit
  | .str s => s ≠ ""
  | .arr items => !items.isEmpty
  | .obj fields => !fields.isEmpty

/-- Python dict indexing on a parsed JSON object: the last binding of a key
wins (later members of a JSON object overwrite earlier ones in the dict). -/
def dictGet (fields : List (String × Json)) (k : String) : Option Json :=
  (fields.reverse.find? (fun p => p.1 == k)).map (fun p => p.2)

/-- Python `==` between a parsed JSON value and a string: only a string with
the same characters compares equal. -/
def pyEqStr (v : Json) (s : String) : Bool :=
  match v with
  | .str t => t == s
  | _ => false

/-- The loop body of `extract_levels`: scan the items of the parsed list; a
non-dict item makes `item[\x27name\x27]` raise `TypeError`, a dict without the
key raises `KeyError`; the first item whose `name` equals the requested name
returns its `value`. -/
def find_level (items : List Json) (level_name : String) :
    Except PyError (Option Json) :=
  match items with
  | [] => .ok none
  | item :: rest =>
    match item with
    | .obj fields =>
      match dictGet fields "name" with
      | none => .error (.keyError "name")
      | some v =>
        if pyEqStr v level_name then
          match dictGet fields "value" with
          | none => .error (.keyError "value")
          | some w => .ok (some w)
        else find_level rest level_name
    | _ => .error .typeError

/-- Embeds `extract_levels` (app.py lines 20-25).  `if json_data:` is Python
truthiness, so `None` and falsy values skip the loop and return `None`;
iterating a truthy non-list value yields a `TypeError` at `item[\x27name\x27]`
(string/dict iteration produces strings) or at the `for` itself. -/
def extract_levels (json_data : Option Json) (level_name : String) :
    Except PyError (Option Json) :=
  match json_data with
  | none => .ok none
  | some j =>
    if truthy j then
      match j with
      | .arr items => find_level items level_name
      | _ => .error .typeError
    else .ok none

/-- ASCII whitespace stripped by Python's `str.strip` (space and `\t\n\v\f\r`).
Non-ASCII Unicode whitespace does not occur in the modelled data. -/
def isPySpace (c : Char) : Bool := c.toNat = 32 || (9 ≤ c.toNat && c.toNat ≤ 13)

/-- Lower-case one character as Python's `str.lower` does on ASCII. -/
def pyLowerChar (c : Char) : Char :=
  if 65 ≤ c.toNat ∧ c.toNat ≤ 90 then Char.ofNat (c.toNat + 32) else c

/-- Strip leading and trailing whitespace from a character list. -/
def pyStripL (l : List Char) : List Char :=
  ((l.dropWhile isPySpace).reverse.dropWhile isPySpace).reverse

/-- Python `str.strip` (ASCII scope). -/
def pyStrip (s : String) : String := String.mk (pyStripL s.toList)

/-- Python `str.lower` (ASCII scope). -/
def pyLower (s : String) : String := String.mk (s.toList.map pyLowerChar)

/-- The normal form used by `exact_string_match`: `strip` then `lower`. -/
def pyNorm (s : String) : String := pyLower (pyStrip s)

/-- Embeds `exact_string_match` (app.py lines 30-38): normalize the query and
each candidate by trim+lowercase and return the first original candidate
whose normal form equals the query's normal form, else `None`. -/
def exact_string_match (farm_name_param : String) (farms : List String) :
    Option String :=
  match farms with
  | [] => none
  | farm :: rest =>
    if pyNorm farm == pyNorm farm_name_param then some farm
    else exact_string_match farm_name_param rest

/-- Helper for `pandasUnique`: keep the elements not seen before, tracking
the already-seen values. -/
def pandasUniqueAux : List String → List String → List String
  | [], _ => []
  | x :: rest, seen =>
    if x ∈ seen then pandasUniqueAux rest seen
    else x :: pandasUniqueAux rest (x :: seen)

/-- Embeds `pandas.Series.unique`: distinct values in order of first
occurrence. -/
def pandasUnique (l : List String) : List String := pandasUniqueAux l []

/-- Lexicographic strict comparison of two character lists by code point,
as Python compares strings. -/
def listLtB : List Char → List Char → Bool
  | _, [] => false
  | [], _ :: _ => true
  | a :: as, b :: bs =>
    if a.toNat < b.toNat then true
    else if b.toNat < a.toNat then false
    else listLtB as bs

/-- Non-strict string comparison by code point. -/
def strLeB (a b : String) : Bool := ! listLtB b.toList a.toList

/-- Python's `sorted` on a list of strings: ascending code-point
lexicographic order (modelled by insertion sort, which agrees with any
stable sort on the deduplicated inputs it is applied to here). -/
def pySortStr (l : List String) : List String :=
  List.insertionSort (fun a b => strLeB a b = true) l

/-- A calendar date as held by a valid `pd.Timestamp` (pandas timestamps
always fall in 1677-2262, so `%Y` always prints four digits). -/
structure PyDate where
  year : Nat
  month : Nat
  day : Nat
deriving DecidableEq

/-- One row of the loaded CSV after `load_data`: the `Date` column has been
coerced with `pd.to_datetime(errors=coerce)`, so it is a date or NaT
(`none`); the other required columns are object cells.  `idx` is the row's
original dataframe index. -/
structure RawRow where
  idx : Nat
  farmName : PyCell
  jsonData : PyCell
  imageUrl : PyCell
  activity : PyCell
  date : Option PyDate
deriving DecidableEq

/-- One row after the cleaning block of `main` (app.py lines 140-142):
`farmName` is known to be a present string, `json_data` is the parsed
metadata column and `severity` the derived `Severity` column. -/
structure CleanRow where
  idx : Nat
  farmName : String
  jsonData : PyCell
  json_data : Option Json
  severity : Option Json
  imageUrl : PyCell
  activity : PyCell
  date : Option PyDate

/-- Embeds `data[\x27json data\x27].apply(safe_json_loads)` (app.py line 140):
parse every row's metadata cell in dataframe order, propagating the first
uncaught exception. -/
def parse_json_col : List RawRow → Except PyError (List (RawRow × Option Json))
  | [] => .ok []
  | r :: rest => do
    let j ← safe_json_loads r.jsonData
    let tail ← parse_json_col rest
    pure ((r, j) :: tail)

/-- Embeds `data.dropna(subset=[\x27farmName\x27])` (app.py line 141): keep
exactly the rows whose `farmName` cell is a present string. -/
def drop_missing_farm (l : List (RawRow × Option Json)) :
    List (String × RawRow × Option Json) :=
  l.filterMap (fun rj =>
    match rj.1.farmName with
    | PyCell.str nm => some (nm, rj)
    | PyCell.nan => none)

/-- Embeds the `Severity` derivation (app.py line 142): apply
`extract_levels` to each row's parsed metadata, propagating the first
uncaught exception. -/
def derive_severity : List (String × RawRow × Option Json) →
    Except PyError (List CleanRow)
  | [] => .ok []
  | (nm, r, j) :: rest => do
    let sev ← extract_levels j "Severity"
    let tail ← derive_severity rest
    pure (⟨r.idx, nm, r.jsonData, j, sev, r.imageUrl, r.activity, r.date⟩ :: tail)

/-- The cleaning block of `main` (app.py lines 140-142): parse the metadata
column, drop rows with a missing farm name, derive the severity column. -/
def clean_data (rows : List RawRow) : Except PyError (List CleanRow) := do
  let parsed ← parse_json_col rows
  derive_severity (drop_missing_farm parsed)

/-- Embeds `filter_farms` (app.py lines 27-28):
`sorted(data[\x27farmName\x27].unique())`. -/
def filter_farms (rows : List CleanRow) : List String :=
  pySortStr (pandasUnique (rows.map (fun r => r.farmName)))

/-- Values pandas `dropna` removes from the derived severity column: the
Python `None` that `json.loads` produces for JSON `null`, and float NaN. -/
def jsonIsNA : Json → Bool
  | .null => true
  | .num lit => lit = "NaN"
  | _ => false

/-- Checks that every observed severity value is a string, returning them;
`sorted` over values of mixed types would raise `TypeError` in Python, which
is how a non-string severity is modelled here. -/
def allStrings : List Json → Option (List String)
  | [] => some []
  | .str s :: rest => (allStrings rest).map (fun l => s :: l)
  | _ :: _ => none

/-- Embeds `severity_levels` (app.py line 164):
`[\x27Select All\x27] + sorted(data[\x27Severity\x27].dropna().unique())` over
the full cleaned dataset.  (`unique` before `sorted` equals sorting the
deduplicated values.) -/
def severity_levels_of (col : List (Option Json)) : Except PyError (List String) :=
  let nonNull := col.filterMap (fun o =>
    match o with
    | none => none
    | some j => if jsonIsNA j then none else some j)
  match allStrings nonNull with
  | some strs => .ok ("Select All" :: pySortStr (pandasUnique strs))
  | none => .error .typeError

/-- User-visible output units emitted by the Streamlit calls of the app, in
emission order. -/
inductive Event where
  | warning (msg : String)
  | error (msg : String)
  | success (msg : String)
  | image (url : String) (caption : String)
  | downloadButton (filename : String)
  | write (msg : String)
  | metaLine (name value : Json)
  | writeDate (d : PyDate)

/-- Decode one percent-escape if the next three characters form `%XX` with an
ASCII code; otherwise the `%` is kept literally, as `urllib.parse.unquote`
does for invalid escapes.  (Multi-byte UTF-8 escapes do not occur in the
modelled queries.) -/
def unquoteL : List Char → List Char
  | [] => []
  | '%' :: h1 :: h2 :: rest =>
    match hexDigit h1, hexDigit h2 with
    | some a, some b =>
      if a * 16 + b < 128 then Char.ofNat (a * 16 + b) :: unquoteL rest
      else '%' :: h1 :: h2 :: unquoteL rest
    | _, _ => '%' :: h1 :: h2 :: unquoteL rest
  | c :: rest => c :: unquoteL rest

/-- Embeds `urllib.parse.unquote` (ASCII scope). -/
def unquote (s : String) : String := String.mk (unquoteL s.toList)

/-- Embeds the farm-selection default (app.py lines 148-162).  `if
farm_name_param:` is Python truthiness, so an empty parameter counts as
absent; on a match the selected index is `farms.index(match)` with a success
message, otherwise index 0 with a warning naming the decoded query. -/
def default_farm_index (farm_name_param : Option String) (farms : List String) :
    Nat × List Event :=
  match farm_name_param with
  | none => (0, [])
  | some q0 =>
    if q0 = "" then (0, [])
    else
      let q := unquote q0
      match exact_string_match q farms with
      | some f =>
        if f ≠ "" then
          (List.indexOf f farms, [.success ("Showing data for farm: " ++ f)])
        else
          (0, [.warning ("Farm \x27" ++ q ++ "\x27 not found. Showing default farm.")])
      | none =>
        (0, [.warning ("Farm \x27" ++ q ++ "\x27 not found. Showing default farm.")])

/-- Embeds the severity-selection default (app.py lines 165-168): the
parameter is honoured only when truthy and a member of the candidate list. -/
def default_severity_index (severity_param : Option String)
    (levels : List String) : Nat :=
  match severity_param with
  | none => 0
  | some s => if s ≠ "" ∧ s ∈ levels then List.indexOf s levels else 0

/-- The initial selection state computed by `main` (app.py lines 144-182):
the farm directory, the severity candidate list, the initially selected farm
and severity (the selectbox options at the default indices), and the
informational events emitted while resolving the farm parameter. -/
structure Selection where
  farms : List String
  levels : List String
  selectedFarm : Option String
  selectedSeverity : Option String
  events : List Event

/-- Composes the directory/selection part of `main` (app.py lines 144-182). -/
def main_select (farm_name_param severity_param : Option String)
    (rows : List CleanRow) : Except PyError Selection := do
  let farms := filter_farms rows
  let fe := default_farm_index farm_name_param farms
  let levels ← severity_levels_of (rows.map (fun r => r.severity))
  let dsi := default_severity_index severity_param levels
  pure ⟨farms, levels, farms[fe.1]?, levels[dsi]?, fe.2⟩

/-- Bytes of a fetched or re-encoded image payload. -/
abbrev ByteData := List Nat

/-- Zero-pad a number to two digits, as `strftime` does for `%m` and `%d`. -/
def pad2 (n : Nat) : String := if n < 10 then "0" ++ toString n else toString n

/-- Embeds `Timestamp.strftime(\x27%Y-%m-%d\x27)`. -/
def formatDate (d : PyDate) : String :=
  toString d.year ++ "-" ++ pad2 d.month ++ "-" ++ pad2 d.day

/-- Embeds the filename derivation (app.py lines 78-80): the row's `Date` is
a `pd.Timestamp` exactly when the source value parsed (`NaT` is not a
`Timestamp`), and `index` is the row's original dataframe index. -/
def img_name (farmName : String) (date : Option PyDate) (index : Nat) : String :=
  match date with
  | some d =>
    farmName ++ "_" ++ formatDate d ++ "_" ++ toString (index + 1) ++ ".jpg"
  | none => farmName ++ "_unknown_date_" ++ toString (index + 1) ++ ".jpg"

/-- Embeds the metadata loop of the right column (app.py lines 97-99): write
one `name: value` line per item; a non-dict item or a missing key raises and
is caught by the surrounding handler, which emits one error and stops the
panel (lines already written remain). -/
def render_items : List Json → List Event
  | [] => []
  | item :: rest =>
    match item with
    | .obj fields =>
      match dictGet fields "name" with
      | none => [.error "Error processing JSON data"]
      | some n =>
        match dictGet fields "value" with
        | none => [.error "Error processing JSON data"]
        | some v => .metaLine n v :: render_items rest
    | _ => [.error "Error processing JSON data"]

/-- Embeds the metadata panel of the right column (app.py lines 93-103): a
missing cell warns, malformed JSON errors, a parsed non-list value raises
`TypeError` in the loop (caught as an error), and iterating an empty string
or empty dict emits nothing. -/
def render_json_panel (cell : PyCell) : List Event :=
  match cell with
  | .nan => [.warning "No JSON data available"]
  | .str s =>
    match json_loads s with
    | .error _ => [.error "Invalid JSON data"]
    | .ok j =>
      match j with
      | .arr items => render_items items
      | .obj fields => if fields.isEmpty then [] else [.error "Error processing JSON data"]
      | .str t => if t = "" then [] else [.error "Error processing JSON data"]
      | _ => [.error "Error processing JSON data"]

/-- Embeds the right column of one record (app.py lines 90-108): farm name,
metadata panel, activity note and activity date, each null-tolerant. -/
def render_col2 (row : CleanRow) : List Event :=
  [.write ("Farm Name: " ++ row.farmName), .write "Other Information:"]
    ++ render_json_panel row.jsonData
    ++ [.write "#### Activity ",
        (match row.activity with
         | .str a => .write a
         | .nan => .write "No activity recorded"),
        .write "##### Activity Date",
        (match row.date with
         | some d => .writeDate d
         | none => .write "No date recorded")]

/-- Embeds one iteration of the `display_farm_info` loop (app.py lines
61-108).  `fetch` is the oracle for `requests.get` + `raise_for_status`
(`none` = `RequestException`); both GETs of a pass hit the same URL and are
modelled by the same oracle value.  `decode` is the oracle for PIL open +
format normalization + re-encode (`none` = `UnidentifiedImageError`).  Note
the `continue` on an invalid image URL skips the whole rest of the loop
body, including the entire right column. -/
def render_row (fetch : String → Option ByteData)
    (decode : ByteData → Option ByteData) (row : CleanRow) :
    List Event × List (ByteData × String) :=
  match row.imageUrl with
  | .nan =>
    ([.warning ("Invalid image URL for entry " ++ toString (row.idx + 1))], [])
  | .str url =>
    match fetch url with
    | none =>
      ([.error ("Error loading image " ++ toString (row.idx + 1))]
         ++ render_col2 row, [])
    | some raw =>
      let caption := "Image " ++ toString (row.idx + 1)
      let name := img_name row.farmName row.date row.idx
      match decode raw with
      | none =>
        ([.image url caption, .error "Error downloading or processing image"]
           ++ render_col2 row, [])
      | some out =>
        if out ≠ [] then
          ([.image url caption, .downloadButton name] ++ render_col2 row,
           [(out, name)])
        else ([.image url caption] ++ render_col2 row, [])

/-- Embeds `display_farm_info` (app.py lines 57-110): filter to the selected
farm's rows, render each row, and accumulate the successfully fetched
download units in row order. -/
def display_farm_info (fetch : String → Option ByteData)
    (decode : ByteData → Option ByteData) (rows : List CleanRow)
    (farm_name : String) : List Event × List (ByteData × String) :=
  (rows.filter (fun r => r.farmName == farm_name)).foldr
    (fun r acc =>
      ((render_row fetch decode r).1 ++ acc.1,
       (render_row fetch decode r).2 ++ acc.2))
    ([], [])

/-- Embeds `create_zip` (app.py lines 112-119): one archive entry per unit,
each unit's bytes stored under its filename, in order. -/
def create_zip (images : List (ByteData × String)) : List (String × ByteData) :=
  images.map (fun u => (u.2, u.1))

/-- Embeds the bundling step of `main` (app.py lines 192-200): `if
images_to_download:` is list truthiness, so no archive is built and no
download affordance offered when nothing was fetched. -/
def bundle_step (images : List (ByteData × String)) :
    Option (List (String × ByteData)) :=
  if images.isEmpty then none else some (create_zip images)

theorem toList_mk (l : List Char) : (String.mk l).toList = l := rfl

theorem toNat_ofNat_valid {n : Nat} (h : n.isValidChar) :
    (Char.ofNat n).toNat = n := by
  rw [Char.ofNat, dif_pos h]
  rfl

theorem isPySpace_iff (c : Char) :
    isPySpace c = true ↔ (c.toNat = 32 ∨ (9 ≤ c.toNat ∧ c.toNat ≤ 13)) := by
  simp [isPySpace]

theorem pyLowerChar_toNat_of_upper {c : Char}
    (h : 65 ≤ c.toNat ∧ c.toNat ≤ 90) :
    (pyLowerChar c).toNat = c.toNat + 32 := by
  rw [pyLowerChar, if_pos h]
  exact toNat_ofNat_valid (Or.inl (by omega))

theorem isPySpace_pyLowerChar (c : Char) :
    isPySpace (pyLowerChar c) = isPySpace c := by
  by_cases h : 65 ≤ c.toNat ∧ c.toNat ≤ 90
  · rw [Bool.eq_iff_iff, isPySpace_iff, isPySpace_iff,
      pyLowerChar_toNat_of_upper h]
    omega
  · rw [pyLowerChar, if_neg h]

theorem pyLowerChar_idem (c : Char) :
    pyLowerChar (pyLowerChar c) = pyLowerChar c := by
  by_cases h : 65 ≤ c.toNat ∧ c.toNat ≤ 90
  · have h1 := pyLowerChar_toNat_of_upper h
    conv_lhs => rw [pyLowerChar]
    rw [if_neg (by omega)]
  · have hc : pyLowerChar c = c := by rw [pyLowerChar, if_neg h]
    rw [hc, hc]

theorem pyStripL_map_lower (l : List Char) :
    pyStripL (l.map pyLowerChar) = (pyStripL l).map pyLowerChar := by
  have hp : (isPySpace ∘ pyLowerChar) = isPySpace := funext isPySpace_pyLowerChar
  rw [pyStripL, pyStripL, List.dropWhile_map, hp, ← List.map_reverse,
    List.dropWhile_map, hp, ← List.map_reverse]

theorem pyStrip_pyLower (s : String) :
    pyStrip (pyLower s) = pyLower (pyStrip s) := by
  simp [pyStrip, pyLower, toList_mk, pyStripL_map_lower]

theorem pyLower_idem (s : String) : pyLower (pyLower s) = pyLower s := by
  have hc : (pyLowerChar ∘ pyLowerChar) = pyLowerChar := funext pyLowerChar_idem
  simp [pyLower, toList_mk, List.map_map, hc]

theorem pyNorm_pyLower (s : String) : pyNorm (pyLower s) = pyNorm s := by
  rw [pyNorm, pyNorm, pyStrip_pyLower, pyLower_idem]

theorem dropWhile_replicate_space (n : Nat) (r : List Char) :
    List.dropWhile isPySpace (List.replicate n ' ' ++ r) =
      List.dropWhile isPySpace r := by
  apply List.dropWhile_append_of_pos
  intro a ha
  rw [List.eq_of_mem_replicate ha]
  rfl

theorem pyStripL_pad (m n : Nat) (l : List Char) :
    pyStripL (List.replicate m ' ' ++ l ++ List.replicate n ' ') = pyStripL l := by
  rw [pyStripL, pyStripL, List.append_assoc, dropWhile_replicate_space,
    List.dropWhile_append]
  by_cases h : (List.dropWhile isPySpace l).isEmpty
  · rw [if_pos h]
    have h0 : List.dropWhile isPySpace (List.replicate n ' ') = [] := by
      have := dropWhile_replicate_space n ([] : List Char)
      simpa using this
    rw [List.isEmpty_iff] at h
    rw [h0, h]
  · rw [if_neg h, List.reverse_append, List.reverse_replicate,
      dropWhile_replicate_space]

theorem pyNorm_pad (m n : Nat) (s : String) :
    pyNorm (String.mk (List.replicate m ' ' ++ s.toList ++ List.replicate n ' '))
      = pyNorm s := by
  rw [pyNorm, pyNorm, pyStrip, pyStrip, toList_mk, pyStripL_pad]

theorem mem_pandasUniqueAux (a : String) (l : List String) :
    ∀ seen, a ∈ pandasUniqueAux l seen ↔ (a ∈ l ∧ a ∉ seen) := by
  induction l with
  | nil => intro seen; simp [pandasUniqueAux]
  | cons x rest ih =>
    intro seen
    by_cases hx : x ∈ seen
    · rw [pandasUniqueAux, if_pos hx, ih]
      by_cases hax : a = x
      · subst hax; simp [hx]
      · simp [hax]
    · rw [pandasUniqueAux, if_neg hx]
      by_cases hax : a = x
      · subst hax; simp [hx]
      · simp [ih, hax]

theorem mem_pandasUnique (a : String) (l : List String) :
    a ∈ pandasUnique l ↔ a ∈ l := by
  rw [pandasUnique, mem_pandasUniqueAux]
  simp

theorem nodup_pandasUniqueAux (l : List String) :
    ∀ seen, (pandasUniqueAux l seen).Nodup := by
  induction l with
  | nil => intro seen; simp [pandasUniqueAux]
  | cons x rest ih =>
    intro seen
    by_cases hx : x ∈ seen
    · rw [pandasUniqueAux, if_pos hx]
      exact ih seen
    · rw [pandasUniqueAux, if_neg hx, List.nodup_cons]
      constructor
      · intro hmem
        rw [mem_pandasUniqueAux] at hmem
        exact hmem.2 (List.mem_cons_self x seen)
      · exact ih (x :: seen)

theorem nodup_pandasUnique (l : List String) : (pandasUnique l).Nodup :=
  nodup_pandasUniqueAux l []

theorem listLtB_iff_core (x y : List Char) : listLtB x y = true ↔ List.lt x y := by
  induction x generalizing y with
  | nil =>
    cases y with
    | nil => exact iff_of_false (by simp [listLtB]) nofun
    | cons b bs => exact iff_of_true (by simp [listLtB]) (List.lt.nil b bs)
  | cons a as ih =>
    cases y with
    | nil => exact iff_of_false (by simp [listLtB]) nofun
    | cons b bs =>
      by_cases h1 : a.toNat < b.toNat
      · simp only [listLtB, if_pos h1]
        exact iff_of_true trivial (List.lt.head as bs h1)
      · by_cases h2 : b.toNat < a.toNat
        · simp only [listLtB, if_neg h1, if_pos h2]
          refine iff_of_false (by simp) (fun h => ?_)
          cases h with
          | head _ _ h3 => exact h1 h3
          | tail h3 h4 h5 => exact h4 h2
        · simp only [listLtB, if_neg h1, if_neg h2]
          rw [ih bs]
          constructor
          · exact fun h => List.lt.tail h1 h2 h
          · intro h
            cases h with
            | head _ _ h3 => exact absurd h3 h1
            | tail h3 h4 h5 => exact h5

theorem listLtB_iff (x y : List Char) : listLtB x y = true ↔ x < y :=
  (listLtB_iff_core x y).trans (List.lt_iff_lex_lt x y)

theorem strLeB_iff (a b : String) : strLeB a b = true ↔ a ≤ b := by
  have h1 : listLtB b.toList a.toList = true ↔ b < a :=
    (listLtB_iff _ _).trans String.lt_iff_toList_lt.symm
  rw [strLeB, Bool.not_eq_true', ← not_lt, ← h1]
  cases hb : listLtB b.toList a.toList <;> simp

instance : IsTotal String (fun a b => strLeB a b = true) :=
  ⟨fun a b => by
    rcases le_total a b with h | h
    · exact Or.inl ((strLeB_iff a b).mpr h)
    · exact Or.inr ((strLeB_iff b a).mpr h)⟩

instance : IsTrans String (fun a b => strLeB a b = true) :=
  ⟨fun a b c hab hbc =>
    (strLeB_iff a c).mpr (le_trans ((strLeB_iff a b).mp hab)
      ((strLeB_iff b c).mp hbc))⟩

theorem pySortStr_sorted (l : List String) :
    (pySortStr l).Sorted (fun a b : String => a ≤ b) := by
  have h := List.sorted_insertionSort (fun a b : String => strLeB a b = true) l
  exact h.imp (fun hab => (strLeB_iff _ _).mp hab)

theorem pySortStr_perm (l : List String) : (pySortStr l).Perm l :=
  List.perm_insertionSort _ l

theorem mem_pySortStr (a : String) (l : List String) :
    a ∈ pySortStr l ↔ a ∈ l :=
  (pySortStr_perm l).mem_iff

theorem nodup_pySortStr {l : List String} (h : l.Nodup) :
    (pySortStr l).Nodup :=
  ((pySortStr_perm l).nodup_iff).mpr h

theorem sorted_lt_pySortStr {l : List String} (h : l.Nodup) :
    (pySortStr l).Sorted (fun a b : String => a < b) :=
  List.Sorted.lt_of_le (pySortStr_sorted l) (nodup_pySortStr h)

theorem exact_string_match_eq_find (q : String) (farms : List String) :
    exact_string_match q farms =
      farms.find? (fun f => pyNorm f == pyNorm q) := by
  induction farms with
  | nil => rfl
  | cons farm rest ih =>
    rw [exact_string_match, List.find?_cons]
    by_cases h : pyNorm farm == pyNorm q
    · simp [h]
    · simp only [Bool.not_eq_true] at h
      simp [h, ih]

/-- Build the parsed form of one well-formed metadata entry
`\x7b"name": n, "value": v\x7d`. -/
def mkEntry (e : String × String) : Json :=
  Json.obj [("name", Json.str e.1), ("value", Json.str e.2)]

theorem find_level_mkEntry (entries : List (String × String)) (nm : String) :
    find_level (entries.map mkEntry) nm =
      Except.ok ((entries.find? (fun e => e.1 == nm)).map
        (fun e => Json.str e.2)) := by
  induction entries with
  | nil => rfl
  | cons e rest ih =>
    by_cases h : e.1 == nm
    · simp [find_level, mkEntry, dictGet, pyEqStr, h, List.find?_cons]
    · simp only [Bool.not_eq_true] at h
      simp [find_level, mkEntry, dictGet, pyEqStr, h, List.find?_cons, ih]

/-- Claim C2 counterexample: on a missing metadata cell (pandas NaN),
`safe_json_loads` does not return `None`; `json.loads` raises `TypeError`,
which `except json.JSONDecodeError` does not catch, so the exception
propagates to the caller — contradicting "returns null on missing input"
and "never raises an exception to its caller". -/
theorem C2_parse_counterexample :
    safe_json_loads PyCell.nan = Except.error PyError.typeError ∧
    safe_json_loads PyCell.nan ≠ Except.ok none :=
  ⟨rfl, fun h => Except.noConfusion h⟩

/-- Claim C2 (amended): for string input, the metadata parse returns the
parsed JSON value on valid JSON and `None` on malformed JSON, never raising;
on missing (NaN) input it raises `TypeError` to its caller. -/
theorem C2_parse_amended (s : String) :
    safe_json_loads (PyCell.str s) = Except.ok (json_loads s).toOption ∧
    safe_json_loads PyCell.nan = Except.error PyError.typeError := by
  constructor
  · cases h : json_loads s <;> simp [safe_json_loads, h, Except.toOption]
  · rfl

/-- Claim C4: `exact_string_match` returns the original directory entry at
the first trim+lowercase-normalized equality, `None` when no entry's normal
form equals the query's; it never returns a value not in the directory, and
it is invariant under lower-casing the query or padding it with leading and
trailing spaces. -/
theorem C4_match (q : String) (farms : List String) :
    (∀ f, exact_string_match q farms = some f → f ∈ farms) ∧
    exact_string_match q farms =
      farms.find? (fun f => pyNorm f == pyNorm q) ∧
    ((∀ f ∈ farms, pyNorm f ≠ pyNorm q) → exact_string_match q farms = none) ∧
    (∀ q2, pyNorm q2 = pyNorm q →
      exact_string_match q2 farms = exact_string_match q farms) ∧
    exact_string_match (pyLower q) farms = exact_string_match q farms ∧
    (∀ m n, exact_string_match
        (String.mk (List.replicate m ' ' ++ q.toList ++ List.replicate n ' '))
        farms = exact_string_match q farms) := by
  refine ⟨fun f h => ?_, exact_string_match_eq_find q farms, fun h => ?_,
    fun q2 hq => ?_, ?_, fun m n => ?_⟩
  · rw [exact_string_match_eq_find] at h
    exact List.mem_of_find?_eq_some h
  · rw [exact_string_match_eq_find]
    refine List.find?_eq_none.mpr (fun a ha hp => ?_)
    exact h a ha (by simpa using hp)
  · rw [exact_string_match_eq_find, exact_string_match_eq_find, hq]
  · rw [exact_string_match_eq_find, exact_string_match_eq_find, pyNorm_pyLower]
  · rw [exact_string_match_eq_find, exact_string_match_eq_find, pyNorm_pad]

/-- Claim C4 witness: no fuzzy match for a strict prefix, and padding plus
case changes do not affect the result, at concrete inputs. -/
theorem C4_match_witness :
    exact_string_match "Acm" ["Acme"] = none ∧
    exact_string_match " Acme " ["Acme"] = exact_string_match "acme" ["Acme"] ∧
    exact_string_match "acme" ["Acme"] = some "Acme" := by
  refine ⟨(C4_match "Acm" ["Acme"]).2.2.1 (by decide), ?_, by decide⟩
  exact (C4_match "acme" ["Acme"]).2.2.2.1 " Acme " (by decide)

/-- Claim C7: `filter_farms` returns the distinct farm names of the record
set in strictly ascending (case-sensitive lexicographic) order, without
duplicates, containing exactly the observed farm names. -/
theorem C7_listFarms (rows : List CleanRow) :
    (filter_farms rows).Sorted (fun a b : String => a < b) ∧
    (filter_farms rows).Nodup ∧
    (∀ s, s ∈ filter_farms rows ↔ s ∈ rows.map (fun r => r.farmName)) := by
  refine ⟨sorted_lt_pySortStr (nodup_pandasUnique _),
    nodup_pySortStr (nodup_pandasUnique _), fun s => ?_⟩
  rw [filter_farms, mem_pySortStr, mem_pandasUnique]

/-- Claim C8: lookup over the flattened entries returns the value of the
first entry whose name equals the given name (case-sensitive), `None` when
no entry matches or the entry list is `None`; and concretely
`lookup(parse(the example input), "Severity") == "High"`, while malformed
input parses to `None` and yields an absent severity without an exception. -/
theorem C8_lookup :
    (∀ (entries : List (String × String)) (nm : String),
      extract_levels (some (Json.arr (entries.map mkEntry))) nm =
        Except.ok ((entries.find? (fun e => e.1 == nm)).map
          (fun e => Json.str e.2))) ∧
    (∀ nm, extract_levels none nm = Except.ok none) ∧
    safe_json_loads (PyCell.str "[\x7b\"name\":\"Severity\",\"value\":\"High\"\x7d]")
      = Except.ok (some (Json.arr [mkEntry ("Severity", "High")])) ∧
    extract_levels (some (Json.arr [mkEntry ("Severity", "High")])) "Severity"
      = Except.ok (some (Json.str "High")) ∧
    safe_json_loads (PyCell.str "\x7bbad") = Except.ok none := by
  refine ⟨fun entries nm => ?_, fun nm => rfl, rfl, rfl, rfl⟩
  cases entries with
  | nil => rfl
  | cons e rest =>
    have h := find_level_mkEntry (e :: rest) nm
    simpa [extract_levels, truthy] using h

theorem allStrings_mem (l : List Json) :
    ∀ strs, allStrings l = some strs →
      ∀ s, (s ∈ strs ↔ Json.str s ∈ l) := by
  induction l with
  | nil =>
    intro strs h s
    simp only [allStrings, Option.some.injEq] at h
    subst h
    simp
  | cons j rest ih =>
    intro strs h s
    cases j with
    | str t =>
      simp only [allStrings] at h
      cases hr : allStrings rest with
      | none => rw [hr] at h; simp at h
      | some l2 =>
        rw [hr] at h
        simp only [Option.map_some', Option.some.injEq] at h
        subst h
        simp [List.mem_cons, ih l2 hr s]
    | null => simp [allStrings] at h
    | bool b => simp [allStrings] at h
    | num n => simp [allStrings] at h
    | arr a => simp [allStrings] at h
    | obj o => simp [allStrings] at h

theorem mem_severity_nonNull (col : List (Option Json)) (s : String) :
    Json.str s ∈ col.filterMap (fun o =>
      match o with
      | none => none
      | some j => if jsonIsNA j then none else some j) ↔
      some (Json.str s) ∈ col := by
  rw [List.mem_filterMap]
  constructor
  · rintro ⟨a, ha, hfa⟩
    cases a with
    | none => simp at hfa
    | some j =>
      simp only at hfa
      by_cases hna : jsonIsNA j
      · rw [if_pos hna] at hfa
        exact absurd hfa (by simp)
      · rw [if_neg hna] at hfa
        rw [Option.some.inj hfa] at ha
        exact ha
  · intro ha
    exact ⟨some (Json.str s), ha, by simp [jsonIsNA]⟩

theorem severity_levels_of_ok (col : List (Option Json)) (levels : List String)
    (hok : severity_levels_of col = Except.ok levels) :
    ∃ strs, allStrings (col.filterMap (fun o =>
        match o with
        | none => none
        | some j => if jsonIsNA j then none else some j)) = some strs ∧
      levels = "Select All" :: pySortStr (pandasUnique strs) := by
  rw [severity_levels_of] at hok
  cases hall : allStrings (col.filterMap (fun o =>
      match o with
      | none => none
      | some j => if jsonIsNA j then none else some j)) with
  | none => rw [hall] at hok; exact absurd hok (by simp)
  | some strs =>
    rw [hall] at hok
    exact ⟨strs, rfl, (Except.ok.inj hok).symm⟩

/-- Claim C1 (amended): for every dataset whose observed severity values are
strings, the severity candidate list is the sentinel `"Select All"` (not the
spec's `"all"`) followed by the sorted (ascending, case-sensitive) distinct
non-null severities observed in the full dataset, and its first element is
always that sentinel. -/
theorem C1_severity_levels (col : List (Option Json)) (levels : List String)
    (hok : severity_levels_of col = Except.ok levels) :
    levels.head? = some "Select All" ∧
    ∃ rest, levels = "Select All" :: rest ∧
      rest.Sorted (fun a b : String => a < b) ∧ rest.Nodup ∧
      (∀ s, s ∈ rest ↔ some (Json.str s) ∈ col) := by
  rw [severity_levels_of] at hok
  cases hall : allStrings (col.filterMap (fun o =>
      match o with
      | none => none
      | some j => if jsonIsNA j then none else some j)) with
  | none => rw [hall] at hok; exact absurd hok (by simp)
  | some strs =>
    rw [hall] at hok
    have hlev := (Except.ok.inj hok).symm
    subst hlev
    refine ⟨rfl, pySortStr (pandasUnique strs), rfl,
      sorted_lt_pySortStr (nodup_pandasUnique strs),
      nodup_pySortStr (nodup_pandasUnique strs), fun s => ?_⟩
    rw [mem_pySortStr, mem_pandasUnique, allStrings_mem _ strs hall s,
      mem_severity_nonNull]

/-- Claim C1 witness: concrete dataset with severities Low and High. -/
theorem C1_severity_levels_witness :
    severity_levels_of [some (Json.str "Low"), some (Json.str "High"), none] =
      Except.ok ["Select All", "High", "Low"] ∧
    (["Select All", "High", "Low"] : List String).head? = some "Select All" :=
  ⟨rfl, (C1_severity_levels
    [some (Json.str "Low"), some (Json.str "High"), none]
    ["Select All", "High", "Low"] rfl).1⟩

/-- Claim C1 counterexample: the sentinel the code prepends is the literal
string `"Select All"` (app.py line 164), not `"all"`; for the dataset with
severities Low and High the candidate list is
`["Select All", "High", "Low"]`, never `"all"` followed by anything. -/
theorem C1_severity_levels_counterexample :
    severity_levels_of [some (Json.str "Low"), some (Json.str "High")] =
      Except.ok ["Select All", "High", "Low"] ∧
    ∀ rest, severity_levels_of [some (Json.str "Low"), some (Json.str "High")]
      ≠ Except.ok ("all" :: rest) := by
  refine ⟨rfl, fun rest h => ?_⟩
  rw [show severity_levels_of [some (Json.str "Low"), some (Json.str "High")] =
      Except.ok ["Select All", "High", "Low"] from rfl] at h
  have h1 := Except.ok.inj h
  have h2 : some "Select All" = some "all" := congrArg List.head? h1
  exact absurd (Option.some.inj h2) (by decide)

/-- Claim C9: `bundle_step` produces no archive and offers no download for
an empty unit list, and otherwise an archive with exactly one entry per
unit, each unit's bytes stored under its assigned filename, in order. -/
theorem C9_bundle (images : List (ByteData × String)) :
    (images = [] → bundle_step images = none) ∧
    (images ≠ [] → ∃ z, bundle_step images = some z ∧
      z.length = images.length ∧
      ∀ i : Nat, z[i]? = (images[i]?).map
        (fun u : ByteData × String => (u.2, u.1))) := by
  constructor
  · intro h; subst h; rfl
  · intro h
    refine ⟨create_zip images, ?_, by simp [create_zip], fun i => ?_⟩
    · rw [bundle_step, if_neg]
      simpa [List.isEmpty_iff] using h
    · simp [create_zip]

/-- Claim C9 witness: zero units yield no archive; two units yield the two
entries under their filenames. -/
theorem C9_bundle_witness :
    bundle_step ([] : List (ByteData × String)) = none ∧
    (∃ z, bundle_step [([1], "a.jpg"), ([2], "b.jpg")] = some z ∧
      z.length = 2 ∧
      ∀ i : Nat, z[i]? =
        (([(([1] : ByteData), "a.jpg"), ([2], "b.jpg")])[i]?).map
          (fun u : ByteData × String => (u.2, u.1))) := by
  refine ⟨(C9_bundle []).1 rfl, ?_⟩
  have h := (C9_bundle [([1], "a.jpg"), ([2], "b.jpg")]).2 (by simp)
  simpa using h

/-- Claim C6: every download unit emitted by a row render carries exactly
the filename `farm_date_index+1.jpg` derived from that row's farm name,
date and 1-based original row position (`unknown_date` when the date is
absent), with the spec's concrete examples. -/
theorem C6_filename :
    (∀ fetch decode row u, u ∈ (render_row fetch decode row).2 →
      u.2 = img_name row.farmName row.date row.idx) ∧
    (∀ farm d i, img_name farm (some d) i =
      farm ++ "_" ++ formatDate d ++ "_" ++ toString (i + 1) ++ ".jpg") ∧
    (∀ farm i, img_name farm none i =
      farm ++ "_unknown_date_" ++ toString (i + 1) ++ ".jpg") ∧
    img_name "Acme Farms" (some ⟨2024, 3, 5⟩) 2 = "Acme Farms_2024-03-05_3.jpg" ∧
    img_name "Acme Farms" none 2 = "Acme Farms_unknown_date_3.jpg" := by
  refine ⟨?_, fun farm d i => rfl, fun farm i => rfl, rfl, rfl⟩
  intro fetch decode row u hu
  simp only [render_row] at hu
  split at hu
  · simp at hu
  · split at hu
    · simp at hu
    · split at hu
      · simp at hu
      · split at hu
        · simp at hu
          rw [hu]
        · simp at hu

/-- Claim C6 witness: a successfully fetched row yields its unit under the
derived filename, at a concrete row with a valid date. -/
theorem C6_filename_witness :
    (([7] : ByteData), "A_2024-03-05_1.jpg") ∈
      (render_row (fun _ => some [7]) (fun b => some b)
        ⟨0, "A", PyCell.str "[]", some (Json.arr []), none,
          PyCell.str "u", PyCell.nan, some ⟨2024, 3, 5⟩⟩).2 ∧
    (([7] : ByteData), "A_2024-03-05_1.jpg").2 =
      img_name "A" (some ⟨2024, 3, 5⟩) 0 :=
  ⟨by decide, C6_filename.1 (fun _ => some [7]) (fun b => some b)
    ⟨0, "A", PyCell.str "[]", some (Json.arr []), none,
      PyCell.str "u", PyCell.nan, some ⟨2024, 3, 5⟩⟩
    ([7], "A_2024-03-05_1.jpg") (by decide)⟩

theorem display_cons (fetch : String → Option ByteData)
    (decode : ByteData → Option ByteData) (row : CleanRow)
    (rest : List CleanRow) (farm : String) :
    display_farm_info fetch decode (row :: rest) farm =
      if row.farmName == farm then
        ((render_row fetch decode row).1
            ++ (display_farm_info fetch decode rest farm).1,
         (render_row fetch decode row).2
            ++ (display_farm_info fetch decode rest farm).2)
      else display_farm_info fetch decode rest farm := by
  rw [display_farm_info, List.filter_cons]
  by_cases h : row.farmName == farm
  · rw [if_pos h, if_pos h, List.foldr_cons]
    rfl
  · rw [if_neg h, if_neg h]
    rfl

/-- Claim C3 counterexample: for a record whose image URL cell is missing,
the presenter emits only the per-record warning; the `continue` at app.py
line 68 skips the whole rest of the loop body, so the farm name, metadata
list, activity note and activity date of that record are never emitted —
contradicting "the record's other fields are still emitted". -/
theorem C3_invalid_url_counterexample :
    (display_farm_info (fun _ => none) (fun _ => none)
        [⟨0, "A", PyCell.str "[]", some (Json.arr []), none,
          PyCell.nan, PyCell.nan, none⟩] "A")
      = ([Event.warning "Invalid image URL for entry 1"], []) ∧
    Event.write "Farm Name: A" ∉
      (display_farm_info (fun _ => none) (fun _ => none)
        [⟨0, "A", PyCell.str "[]", some (Json.arr []), none,
          PyCell.nan, PyCell.nan, none⟩] "A").1 := by
  constructor
  · rfl
  · intro hmem
    have h0 : (display_farm_info (fun _ => none) (fun _ => none)
        [⟨0, "A", PyCell.str "[]", some (Json.arr []), none,
          PyCell.nan, PyCell.nan, none⟩] "A").1
        = [Event.warning "Invalid image URL for entry 1"] := rfl
    rw [h0] at hmem
    simp at hmem

/-- Claim C3 (amended): for a record of the selected farm whose image URL is
absent, the presenter emits exactly the per-record warning naming the
record's 1-based position and then skips the remainder of that record's
display unit entirely — the image fetch, and also the farm name, metadata
list, activity note and activity date; the loop continues with the
remaining records, so the rest of the render is not aborted. -/
theorem C3_invalid_url (fetch : String → Option ByteData)
    (decode : ByteData → Option ByteData) (row : CleanRow)
    (rest : List CleanRow) (farm : String)
    (hf : row.farmName = farm) (hurl : row.imageUrl = PyCell.nan) :
    display_farm_info fetch decode (row :: rest) farm =
      (Event.warning ("Invalid image URL for entry " ++ toString (row.idx + 1))
          :: (display_farm_info fetch decode rest farm).1,
       (display_farm_info fetch decode rest farm).2) := by
  have hrr : render_row fetch decode row =
      ([Event.warning ("Invalid image URL for entry " ++ toString (row.idx + 1))],
        []) := by
    simp only [render_row, hurl]
  rw [display_cons, if_pos (by simp [hf]), hrr]
  simp

/-- Claim C3 witness: concrete two-record render where the first record has
a missing image URL and the second is rendered normally. -/
theorem C3_invalid_url_witness :
    display_farm_info (fun _ => none) (fun _ => none)
      [⟨0, "B", PyCell.str "[]", some (Json.arr []), none,
          PyCell.nan, PyCell.nan, none⟩,
        ⟨1, "B", PyCell.str "[]", some (Json.arr []), none,
          PyCell.nan, PyCell.nan, none⟩] "B" =
      (Event.warning "Invalid image URL for entry 1"
          :: (display_farm_info (fun _ => none) (fun _ => none)
            [⟨1, "B", PyCell.str "[]", some (Json.arr []), none,
              PyCell.nan, PyCell.nan, none⟩] "B").1,
       (display_farm_info (fun _ => none) (fun _ => none)
          [⟨1, "B", PyCell.str "[]", some (Json.arr []), none,
            PyCell.nan, PyCell.nan, none⟩] "B").2) :=
  C3_invalid_url (fun _ => none) (fun _ => none)
    ⟨0, "B", PyCell.str "[]", some (Json.arr []), none,
      PyCell.nan, PyCell.nan, none⟩
    [⟨1, "B", PyCell.str "[]", some (Json.arr []), none,
      PyCell.nan, PyCell.nan, none⟩] "B" rfl rfl

theorem dfi_none (farms : List String) :
    default_farm_index none farms = (0, []) := rfl

theorem dfi_matched (q f : String) (farms : List String) (hq : q ≠ "")
    (h : exact_string_match (unquote q) farms = some f) (hf : f ≠ "") :
    default_farm_index (some q) farms =
      (List.indexOf f farms,
        [Event.success ("Showing data for farm: " ++ f)]) := by
  simp [default_farm_index, hq, h, hf]

theorem dfi_unmatched (q : String) (farms : List String) (hq : q ≠ "")
    (h : exact_string_match (unquote q) farms = none) :
    default_farm_index (some q) farms =
      (0, [Event.warning
        ("Farm \x27" ++ unquote q ++ "\x27 not found. Showing default farm.")]) := by
  simp [default_farm_index, hq, h]

theorem dsi_member (s : String) (levels : List String) (hs : s ≠ "")
    (hmem : s ∈ levels) :
    default_severity_index (some s) levels = List.indexOf s levels := by
  simp [default_severity_index, hs, hmem]

theorem dsi_none (levels : List String) :
    default_severity_index none levels = 0 := rfl

theorem dsi_reject (s : String) (levels : List String)
    (h : s = "" ∨ s ∉ levels) :
    default_severity_index (some s) levels = 0 := by
  rcases h with h | h <;> simp [default_severity_index, h]

theorem main_select_ok (fp sp : Option String) (rows : List CleanRow)
    (sel : Selection) (hok : main_select fp sp rows = Except.ok sel) :
    ∃ levels, severity_levels_of (rows.map (fun r => r.severity)) =
        Except.ok levels ∧
      sel = ⟨filter_farms rows, levels,
        (filter_farms rows)[(default_farm_index fp (filter_farms rows)).1]?,
        levels[default_severity_index sp levels]?,
        (default_farm_index fp (filter_farms rows)).2⟩ := by
  rw [main_select] at hok
  cases hlev : severity_levels_of (rows.map (fun r => r.severity)) with
  | error e =>
    rw [hlev] at hok
    exact absurd hok (by simp [Bind.bind, Except.bind])
  | ok levels =>
    rw [hlev] at hok
    simp only [Bind.bind, Except.bind, pure, Except.pure,
      Except.ok.injEq] at hok
    exact ⟨levels, rfl, hok.symm⟩

/-- Claim C5 (amended): for a non-empty farm directory without empty-string
entries, a non-empty farm-name parameter that matches selects the match
(with a confirmation), one that does not match selects the first directory
entry with a warning naming the decoded query, and an absent (or empty,
which Python truthiness treats as absent) parameter selects the first entry;
the selected severity is the severity parameter when it is non-empty and a
member of the candidate list, else the sentinel `"Select All"` (not the
spec's `"all"`). -/
theorem C5_selection (fp sp : Option String) (rows : List CleanRow)
    (sel : Selection) (hok : main_select fp sp rows = Except.ok sel)
    (hne : sel.farms ≠ []) (hnz : "" ∉ sel.farms) :
    (fp = none → sel.selectedFarm = sel.farms.head?) ∧
    (∀ q f, fp = some q → q ≠ "" →
      exact_string_match (unquote q) sel.farms = some f →
      sel.selectedFarm = some f ∧
      Event.success ("Showing data for farm: " ++ f) ∈ sel.events) ∧
    (∀ q, fp = some q → q ≠ "" →
      exact_string_match (unquote q) sel.farms = none →
      sel.selectedFarm = sel.farms.head? ∧
      Event.warning
        ("Farm \x27" ++ unquote q ++ "\x27 not found. Showing default farm.")
        ∈ sel.events) ∧
    (∀ s, sp = some s → s ≠ "" → s ∈ sel.levels →
      sel.selectedSeverity = some s) ∧
    (sp = none → sel.selectedSeverity = some "Select All") ∧
    (∀ s, sp = some s → (s = "" ∨ s ∉ sel.levels) →
      sel.selectedSeverity = some "Select All") := by
  obtain ⟨levels, hlev, rfl⟩ := main_select_ok fp sp rows sel hok
  obtain ⟨strs, _, hshape⟩ :=
    severity_levels_of_ok (rows.map (fun r => r.severity)) levels hlev
  refine ⟨fun h => ?_, fun q f hq hqne hm => ?_, fun q hq hqne hm => ?_,
    fun s hs hsne hsmem => ?_, fun h => ?_, fun s hs hrej => ?_⟩
  · subst h
    simp only [dfi_none]
    exact (List.head?_eq_getElem? _).symm
  · subst hq
    have hfmem : f ∈ filter_farms rows := by
      have h2 := hm
      rw [exact_string_match_eq_find] at h2
      exact List.mem_of_find?_eq_some h2
    have hfne : f ≠ "" := fun hse => hnz (hse ▸ hfmem)
    constructor
    · simp only [dfi_matched _ f _ hqne hm hfne]
      exact List.getElem?_indexOf hfmem
    · simp only [dfi_matched _ f _ hqne hm hfne]
      exact List.mem_singleton.mpr rfl
  · subst hq
    constructor
    · simp only [dfi_unmatched _ _ hqne hm]
      exact (List.head?_eq_getElem? _).symm
    · simp only [dfi_unmatched _ _ hqne hm]
      exact List.mem_singleton.mpr rfl
  · subst hs
    simp only [dsi_member s levels hsne hsmem]
    exact List.getElem?_indexOf hsmem
  · subst h
    rw [dsi_none, hshape]
    simp
  · subst hs
    rw [dsi_reject s levels hrej, hshape]
    simp

/-- Claim C5 witness: concrete dataset with farms Acme and Beta; the
lowercase query `beta` resolves to `Beta` with a confirmation, and with no
severity parameter the selected severity is `Select All`. -/
theorem C5_selection_witness :
    main_select (some "beta") none
      [⟨0, "Acme", PyCell.str "[]", some (Json.arr []), none,
          PyCell.nan, PyCell.nan, none⟩,
        ⟨1, "Beta", PyCell.str "[]", some (Json.arr []), none,
          PyCell.nan, PyCell.nan, none⟩] =
      Except.ok ⟨["Acme", "Beta"], ["Select All"], some "Beta",
        some "Select All",
        [Event.success "Showing data for farm: Beta"]⟩ ∧
    (⟨["Acme", "Beta"], ["Select All"], some "Beta", some "Select All",
        [Event.success "Showing data for farm: Beta"]⟩ :
      Selection).selectedFarm = some "Beta" ∧
    (⟨["Acme", "Beta"], ["Select All"], some "Beta", some "Select All",
        [Event.success "Showing data for farm: Beta"]⟩ :
      Selection).selectedSeverity = some "Select All" := by
  refine ⟨rfl, ?_, ?_⟩
  · exact ((C5_selection (some "beta") none
      [⟨0, "Acme", PyCell.str "[]", some (Json.arr []), none,
          PyCell.nan, PyCell.nan, none⟩,
        ⟨1, "Beta", PyCell.str "[]", some (Json.arr []), none,
          PyCell.nan, PyCell.nan, none⟩]
      ⟨["Acme", "Beta"], ["Select All"], some "Beta", some "Select All",
        [Event.success "Showing data for farm: Beta"]⟩
      rfl (by decide) (by decide)).2.1 "beta" "Beta" rfl (by decide)
      (by decide)).1
  · exact (C5_selection (some "beta") none
      [⟨0, "Acme", PyCell.str "[]", some (Json.arr []), none,
          PyCell.nan, PyCell.nan, none⟩,
        ⟨1, "Beta", PyCell.str "[]", some (Json.arr []), none,
          PyCell.nan, PyCell.nan, none⟩]
      ⟨["Acme", "Beta"], ["Select All"], some "Beta", some "Select All",
        [Event.success "Showing data for farm: Beta"]⟩
      rfl (by decide) (by decide)).2.2.2.2.1 rfl

/-- Claim C5 counterexample: with no severity parameter the selected
severity is the literal `"Select All"` (app.py line 164/168), not the
spec's sentinel `"all"`. -/
theorem C5_selection_counterexample :
    (∃ sel, main_select none none
      [⟨0, "Acme", PyCell.str "[]", some (Json.arr []), none,
          PyCell.nan, PyCell.nan, none⟩] = Except.ok sel ∧
      sel.selectedSeverity = some "Select All" ∧
      sel.selectedSeverity ≠ some "all") :=
  ⟨⟨["Acme"], ["Select All"], some "Acme", some "Select All", []⟩,
    rfl, rfl, by
      intro h
      have h2 := Option.some.inj h
      exact absurd h2 (by decide)⟩

/-- Pointwise relation between a kept (farm, raw row, parsed metadata)
triple and the clean row derived from it. -/
def cleanRel (t : String × RawRow × Option Json) (r : CleanRow) : Prop :=
  r.idx = t.2.1.idx ∧ r.farmName = t.1 ∧ r.jsonData = t.2.1.jsonData ∧
    r.json_data = t.2.2 ∧ extract_levels t.2.2 "Severity" = Except.ok r.severity

theorem forall₂_mem_left {α β : Type} {R : α → β → Prop} :
    ∀ {l1 : List α} {l2 : List β}, List.Forall₂ R l1 l2 →
      ∀ a ∈ l1, ∃ b, b ∈ l2 ∧ R a b := by
  intro l1 l2 h
  induction h with
  | nil => intro a ha; simp at ha
  | cons hr ht ih =>
    intro a ha
    rcases List.mem_cons.mp ha with rfl | ha2
    · exact ⟨_, List.mem_cons_self _ _, hr⟩
    · obtain ⟨b, hb, hrb⟩ := ih a ha2
      exact ⟨b, List.mem_cons_of_mem _ hb, hrb⟩

theorem forall₂_mem_right {α β : Type} {R : α → β → Prop} :
    ∀ {l1 : List α} {l2 : List β}, List.Forall₂ R l1 l2 →
      ∀ b ∈ l2, ∃ a, a ∈ l1 ∧ R a b := by
  intro l1 l2 h
  induction h with
  | nil => intro b hb; simp at hb
  | cons hr ht ih =>
    intro b hb
    rcases List.mem_cons.mp hb with rfl | hb2
    · exact ⟨_, List.mem_cons_self _ _, hr⟩
    · obtain ⟨a, ha, hrb⟩ := ih b hb2
      exact ⟨a, List.mem_cons_of_mem _ ha, hrb⟩

theorem derive_severity_forall₂ :
    ∀ ts out, derive_severity ts = Except.ok out →
      List.Forall₂ cleanRel ts out := by
  intro ts
  induction ts with
  | nil =>
    intro out h
    simp only [derive_severity, Except.ok.injEq] at h
    rw [← h]
    exact List.Forall₂.nil
  | cons t rest ih =>
    intro out h
    obtain ⟨nm, r, j⟩ := t
    cases hsev : extract_levels j "Severity" with
    | error e =>
      rw [derive_severity, hsev] at h
      exact absurd h (by simp [Bind.bind, Except.bind])
    | ok sev =>
      rw [derive_severity, hsev] at h
      cases ht : derive_severity rest with
      | error e =>
        rw [ht] at h
        exact absurd h (by simp [Bind.bind, Except.bind])
      | ok tail =>
        rw [ht] at h
        simp only [Bind.bind, Except.bind, pure, Except.pure,
          Except.ok.injEq] at h
        rw [← h]
        exact List.Forall₂.cons ⟨rfl, rfl, rfl, rfl, hsev⟩ (ih tail ht)

theorem forall₂_map_idx {l1 : List (String × RawRow × Option Json)}
    {l2 : List CleanRow} (h : List.Forall₂ cleanRel l1 l2) :
    l2.map (fun r => r.idx) = l1.map (fun t => t.2.1.idx) := by
  induction h with
  | nil => rfl
  | cons hr ht ih => simp [ih, hr.1]

theorem parse_json_col_shape :
    ∀ (rows : List RawRow) l, parse_json_col rows = Except.ok l →
      l.map Prod.fst = rows ∧
        ∀ p ∈ l, safe_json_loads p.1.jsonData = Except.ok p.2 := by
  intro rows
  induction rows with
  | nil =>
    intro l h
    simp only [parse_json_col, Except.ok.injEq] at h
    rw [← h]
    exact ⟨rfl, by simp⟩
  | cons r rest ih =>
    intro l h
    cases hj : safe_json_loads r.jsonData with
    | error e =>
      rw [parse_json_col, hj] at h
      exact absurd h (by simp [Bind.bind, Except.bind])
    | ok j =>
      rw [parse_json_col, hj] at h
      cases ht : parse_json_col rest with
      | error e =>
        rw [ht] at h
        exact absurd h (by simp [Bind.bind, Except.bind])
      | ok tail =>
        rw [ht] at h
        simp only [Bind.bind, Except.bind, pure, Except.pure,
          Except.ok.injEq] at h
        rw [← h]
        obtain ⟨hmap, hall⟩ := ih tail ht
        refine ⟨by simp [hmap], ?_⟩
        intro p hp
        rcases List.mem_cons.mp hp with rfl | hp2
        · simpa using hj
        · exact hall p hp2

theorem mem_drop_missing_farm (t : String × RawRow × Option Json)
    (l : List (RawRow × Option Json)) :
    t ∈ drop_missing_farm l ↔
      t.2 ∈ l ∧ t.2.1.farmName = PyCell.str t.1 := by
  rw [drop_missing_farm, List.mem_filterMap]
  constructor
  · rintro ⟨a, ha, hfa⟩
    cases hfn : a.1.farmName with
    | str nm =>
      rw [hfn] at hfa
      simp only [Option.some.injEq] at hfa
      rw [← hfa]
      exact ⟨ha, hfn⟩
    | nan => rw [hfn] at hfa; exact absurd hfa (by simp)
  · rintro ⟨hmem, hfn⟩
    refine ⟨t.2, hmem, ?_⟩
    rw [hfn]

theorem drop_missing_farm_map_idx (l : List (RawRow × Option Json)) :
    (drop_missing_farm l).map (fun t => t.2.1.idx) =
      (l.filter (fun rj => rj.1.farmName ≠ PyCell.nan)).map
        (fun rj => rj.1.idx) := by
  induction l with
  | nil => rfl
  | cons a rest ih =>
    cases hfn : a.1.farmName with
    | str nm =>
      simp only [drop_missing_farm, List.filterMap_cons, List.filter_cons,
        hfn] at ih ⊢
      simp [ih]
    | nan =>
      simp only [drop_missing_farm, List.filterMap_cons, List.filter_cons,
        hfn] at ih ⊢
      simp [ih]

/-- Claim C10: after cleaning, the retained rows are exactly those with a
present farm name (positions preserved); every retained record's farm name
was a present string; and a retained row whose metadata string fails to
parse as JSON keeps an absent derived severity rather than being dropped. -/
theorem C10_clean (rows : List RawRow) (out : List CleanRow)
    (hok : clean_data rows = Except.ok out) :
    out.map (fun r => r.idx) =
      (rows.filter (fun r => r.farmName ≠ PyCell.nan)).map (fun r => r.idx) ∧
    (∀ r2 ∈ out, ∃ r, r ∈ rows ∧ r.idx = r2.idx ∧
      r.farmName = PyCell.str r2.farmName) ∧
    (∀ r ∈ rows, ∀ nm s, r.farmName = PyCell.str nm →
      r.jsonData = PyCell.str s → (∃ e, json_loads s = Except.error e) →
      ∃ r2, r2 ∈ out ∧ r2.idx = r.idx ∧ r2.severity = none ∧
        r2.farmName = nm) := by
  rw [clean_data] at hok
  cases hp : parse_json_col rows with
  | error e =>
    rw [hp] at hok
    exact absurd hok (by simp [Bind.bind, Except.bind])
  | ok parsed =>
    rw [hp] at hok
    simp only [Bind.bind, Except.bind] at hok
    have hf2 := derive_severity_forall₂ _ _ hok
    obtain ⟨hmap, hall⟩ := parse_json_col_shape rows parsed hp
    refine ⟨?_, ?_, ?_⟩
    · rw [forall₂_map_idx hf2, drop_missing_farm_map_idx, ← hmap,
        List.filter_map, List.map_map]
      rfl
    · intro r2 hr2
      obtain ⟨t, ht, hrel⟩ := forall₂_mem_right hf2 r2 hr2
      rw [mem_drop_missing_farm] at ht
      refine ⟨t.2.1, ?_, hrel.1.symm, ?_⟩
      · rw [← hmap]
        exact List.mem_map_of_mem Prod.fst ht.1
      · rw [ht.2, hrel.2.1]
    · intro r hr nm s hfn hjd herr
      obtain ⟨e, herr⟩ := herr
      rw [← hmap] at hr
      obtain ⟨p, hp2, hp1⟩ := List.mem_map.mp hr
      have hsafe := hall p hp2
      rw [hp1, hjd] at hsafe
      simp only [safe_json_loads, herr, Except.ok.injEq] at hsafe
      have htmem : (nm, p) ∈ drop_missing_farm parsed := by
        rw [mem_drop_missing_farm]
        exact ⟨hp2, by rw [hp1, hfn]⟩
      obtain ⟨r2, hr2, hrel⟩ := forall₂_mem_left hf2 (nm, p) htmem
      refine ⟨r2, hr2, by rw [hrel.1, hp1], ?_, hrel.2.1⟩
      have hx := hrel.2.2.2.2
      rw [← hsafe] at hx
      have hx2 : Except.ok (ε := PyError) (none : Option Json) =
          Except.ok r2.severity := hx
      exact (Except.ok.inj hx2).symm

/-- Claim C10 witness: three concrete rows — valid metadata, malformed
metadata, missing farm name; cleaning keeps exactly the first two and the
malformed-metadata row keeps an absent severity. -/
theorem C10_clean_witness :
    clean_data
      [⟨0, PyCell.str "Acme", PyCell.str "[]", PyCell.nan, PyCell.nan, none⟩,
        ⟨1, PyCell.str "Beta", PyCell.str "\x7bbad", PyCell.nan, PyCell.nan, none⟩,
        ⟨2, PyCell.nan, PyCell.str "[]", PyCell.nan, PyCell.nan, none⟩] =
      Except.ok
        [⟨0, "Acme", PyCell.str "[]", some (Json.arr []), none,
            PyCell.nan, PyCell.nan, none⟩,
          ⟨1, "Beta", PyCell.str "\x7bbad", none, none,
            PyCell.nan, PyCell.nan, none⟩] ∧
    ([⟨0, "Acme", PyCell.str "[]", some (Json.arr []), none,
        PyCell.nan, PyCell.nan, none⟩,
      (⟨1, "Beta", PyCell.str "\x7bbad", none, none,
        PyCell.nan, PyCell.nan, none⟩ : CleanRow)].map (fun r => r.idx) =
      [0, 1]) ∧
    (∃ r2, r2 ∈
        [⟨0, "Acme", PyCell.str "[]", some (Json.arr []), none,
            PyCell.nan, PyCell.nan, none⟩,
          (⟨1, "Beta", PyCell.str "\x7bbad", none, none,
            PyCell.nan, PyCell.nan, none⟩ : CleanRow)] ∧
      r2.idx = 1 ∧ r2.severity = none ∧ r2.farmName = "Beta") := by
  refine ⟨rfl, ?_, ?_⟩
  · have h := (C10_clean
      [⟨0, PyCell.str "Acme", PyCell.str "[]", PyCell.nan, PyCell.nan, none⟩,
        ⟨1, PyCell.str "Beta", PyCell.str "\x7bbad", PyCell.nan, PyCell.nan, none⟩,
        ⟨2, PyCell.nan, PyCell.str "[]", PyCell.nan, PyCell.nan, none⟩]
      [⟨0, "Acme", PyCell.str "[]", some (Json.arr []), none,
          PyCell.nan, PyCell.nan, none⟩,
        ⟨1, "Beta", PyCell.str "\x7bbad", none, none,
          PyCell.nan, PyCell.nan, none⟩] rfl).1
    exact h.trans rfl
  · exact (C10_clean
      [⟨0, PyCell.str "Acme", PyCell.str "[]", PyCell.nan, PyCell.nan, none⟩,
        ⟨1, PyCell.str "Beta", PyCell.str "\x7bbad", PyCell.nan, PyCell.nan, none⟩,
        ⟨2, PyCell.nan, PyCell.str "[]", PyCell.nan, PyCell.nan, none⟩]
      [⟨0, "Acme", PyCell.str "[]", some (Json.arr []), none,
          PyCell.nan, PyCell.nan, none⟩,
        ⟨1, "Beta", PyCell.str "\x7bbad", none, none,
          PyCell.nan, PyCell.nan, none⟩] rfl).2.2
      ⟨1, PyCell.str "Beta", PyCell.str "\x7bbad", PyCell.nan, PyCell.nan, none⟩
      (by decide) "Beta" "\x7bbad" rfl rfl ⟨"JSONDecodeError", rfl⟩

end FarmApp
